import Mathlib

/-
Verification of the reset/power-up release sequencer embedded in the
LiteX `i6500` CPU wrapper (src/litex/soc/cores/cpu/i6500/core.py,
lines 240-256), and of the `bios_map` address translations of the
`i6500` and `MIPSFPGA` wrappers.

The wrapper builds the sequencer out of `WaitTimer(128)` and a migen
`FSM` with states "RST" and "PWR_UP"; the tick-level semantics of
those two primitives live in `litex.gen.genlib.misc` and migen, whose
sources are not part of the material under verification.  The
sequencer is therefore modelled from the specification (ReleaseSequencer,
section 4.1, with the exclusive-at-129 boundary policy fixed by
section 8, property 1): outputs for a tick are the Moore outputs of
the state reached at the end of the previous tick, external reset
forces the state to Resetting with the counter cleared, and while in
Resetting the counter increments each tick, the state moving to
PoweredUp on the tick whose post-increment counter value reaches 128.
-/

namespace LitexCPU

/-- Modelled from the spec: the two states of the ReleaseSequencer
(the migen FSM states "RST" and "PWR_UP", whose semantics are not in
the sources under verification). -/
inductive SequencerState where
  | Resetting
  | PoweredUp
deriving DecidableEq, Repr

/-- Modelled from the spec: the two boolean control outputs of the
sequencer.  `clusterResetAsserted` is the logical value of
`si_cpc_reset_n` and `clusterPowerAsserted` the logical value of
`si_cluster_pwr_on_n` (the wrapper inverts them into active-low pins;
the spec keeps the active-high logical view). -/
structure ControlOutputs where
  clusterResetAsserted : Bool
  clusterPowerAsserted : Bool
deriving DecidableEq, Repr

/-- Modelled from the spec: the sequencer's state, an enumerated state
plus the bounded SettleCounter. -/
structure ReleaseSequencer where
  state : SequencerState
  settleCounter : Nat
deriving DecidableEq, Repr

/-- The fixed settling period: 128 ticks, from `WaitTimer(128)`. -/
def settleTicks : Nat := 128

/-- Modelled from the spec: the Moore outputs of a sequencer state.
Both outputs are asserted exactly in `Resetting` (the FSM drives
`si_cpc_reset_n` and `si_cluster_pwr_on_n` to 0, i.e. asserted, in
"RST" and to 1, i.e. deasserted, in "PWR_UP"). -/
def outputsOf : SequencerState → ControlOutputs
  | .Resetting => ⟨true, true⟩
  | .PoweredUp => ⟨false, false⟩

/-- Modelled from the spec: the freshly reset sequencer: state
`Resetting`, SettleCounter 0. -/
def initSequencer : ReleaseSequencer := ⟨.Resetting, 0⟩

/-- Modelled from the spec: one tick of the sequencer
(`onTick(externalResetAsserted)`).  The returned outputs are the Moore
outputs of the state as of the end of the previous tick (exclusive-at-129
boundary policy of spec section 8, property 1).  External reset forces the
state to `Resetting` with SettleCounter 0, overriding any counting;
otherwise in `Resetting` the counter increments and the state moves to
`PoweredUp` on the tick whose post-increment value reaches 128, while in
`PoweredUp` nothing changes. -/
def onTick (s : ReleaseSequencer) (externalResetAsserted : Bool) :
    ReleaseSequencer × ControlOutputs :=
  let out := outputsOf s.state
  if externalResetAsserted then
    (⟨.Resetting, 0⟩, out)
  else
    match s.state with
    | .Resetting =>
      let c := s.settleCounter + 1
      if settleTicks ≤ c then (⟨.PoweredUp, c⟩, out) else (⟨.Resetting, c⟩, out)
    | .PoweredUp => (s, out)

/-- Run the sequencer through a finite list of per-tick reset inputs,
returning the final state. -/
def steps : ReleaseSequencer → List Bool → ReleaseSequencer
  | s, [] => s
  | s, b :: bs => steps (onTick s b).1 bs

/-- A sequencer state is reachable when some finite input sequence
drives the freshly reset sequencer to it. -/
def Reachable (s : ReleaseSequencer) : Prop :=
  ∃ l : List Bool, steps initSequencer l = s

/-- State of the sequencer after tick `n` of the run driven by
`input` (tick numbers start at 1; `input 0` is never consulted). -/
def stateAfter (input : Nat → Bool) : Nat → ReleaseSequencer
  | 0 => initSequencer
  | n + 1 => (onTick (stateAfter input n) (input (n + 1))).1

/-- Outputs returned by `onTick` on tick `n` (for `n ≥ 1`) of the run
driven by `input`. -/
def outputAt (input : Nat → Bool) (n : Nat) : ControlOutputs :=
  (onTick (stateAfter input (n - 1)) (input n)).2

/-- The structural invariant of reachable sequencer states: in
`Resetting` the counter has not yet hit the threshold, and `PoweredUp`
is only ever entered with the counter at exactly 128. -/
def GoodState (s : ReleaseSequencer) : Prop :=
  (s.state = .Resetting → s.settleCounter ≤ 127) ∧
  (s.state = .PoweredUp → s.settleCounter = 128)

lemma onTick_true (s : ReleaseSequencer) :
    onTick s true = (⟨.Resetting, 0⟩, outputsOf s.state) := rfl

lemma onTick_false_resetting (c : Nat) :
    onTick ⟨.Resetting, c⟩ false =
      if 128 ≤ c + 1 then (⟨.PoweredUp, c + 1⟩, ⟨true, true⟩)
      else (⟨.Resetting, c + 1⟩, ⟨true, true⟩) := rfl

lemma onTick_false_poweredUp (c : Nat) :
    onTick ⟨.PoweredUp, c⟩ false = (⟨.PoweredUp, c⟩, ⟨false, false⟩) := rfl

lemma onTick_snd (s : ReleaseSequencer) (b : Bool) :
    (onTick s b).2 = outputsOf s.state := by
  rcases s with ⟨st, c⟩
  cases b
  · cases st
    · rw [onTick_false_resetting]
      split <;> simp [outputsOf]
    · rw [onTick_false_poweredUp]; simp [outputsOf]
  · rw [onTick_true]

lemma goodState_init : GoodState initSequencer :=
  ⟨fun _ => by norm_num [initSequencer], fun h => by simp [initSequencer] at h⟩

lemma goodState_onTick (s : ReleaseSequencer) (b : Bool) (hs : GoodState s) :
    GoodState ((onTick s b).1) := by
  rcases s with ⟨st, c⟩
  obtain ⟨h1, h2⟩ := hs
  cases b
  · cases st
    · have hc : c ≤ 127 := h1 rfl
      rw [onTick_false_resetting]
      by_cases h : 128 ≤ c + 1
      · rw [if_pos h]
        exact ⟨fun hx => by simp at hx, fun _ => by simp only; omega⟩
      · rw [if_neg h]
        exact ⟨fun _ => by simp only; omega, fun hx => by simp at hx⟩
    · rw [onTick_false_poweredUp]
      exact ⟨h1, h2⟩
  · rw [onTick_true]
    exact ⟨fun _ => by norm_num, fun hx => by simp at hx⟩

lemma goodState_steps (l : List Bool) :
    ∀ s : ReleaseSequencer, GoodState s → GoodState (steps s l) := by
  induction l with
  | nil => intro s hs; simpa [steps] using hs
  | cons b bs ih =>
    intro s hs
    exact ih _ (goodState_onTick s b hs)

lemma reachable_goodState (s : ReleaseSequencer) (hr : Reachable s) :
    GoodState s := by
  obtain ⟨l, hl⟩ := hr
  simpa [hl] using goodState_steps l initSequencer goodState_init

lemma stateAfter_succ (input : Nat → Bool) (n : Nat) :
    stateAfter input (n + 1) = (onTick (stateAfter input n) (input (n + 1))).1 := rfl

lemma steps_cons (s : ReleaseSequencer) (b : Bool) (bs : List Bool) :
    steps s (b :: bs) = steps (onTick s b).1 bs := rfl

lemma stateAfter_const_false (input : Nat → Bool) (hf : ∀ k, input k = false) :
    ∀ n : Nat, stateAfter input n =
      if n ≤ 127 then ⟨.Resetting, n⟩ else ⟨.PoweredUp, 128⟩ := by
  intro n
  induction n with
  | zero => norm_num [stateAfter, initSequencer]
  | succ n ih =>
    rw [stateAfter_succ, hf, ih]
    by_cases h : n ≤ 127
    · rw [if_pos h, onTick_false_resetting]
      by_cases h2 : 128 ≤ n + 1
      · rw [if_pos h2, if_neg (by omega : ¬ n + 1 ≤ 127)]
        have hn : n + 1 = 128 := by omega
        rw [hn]
      · rw [if_neg h2, if_pos (by omega : n + 1 ≤ 127)]
    · rw [if_neg h, onTick_false_poweredUp, if_neg (by omega : ¬ n + 1 ≤ 127)]

lemma stateAfter_const_true (input : Nat → Bool) (ht : ∀ k, input k = true) :
    ∀ n : Nat, stateAfter input n = ⟨.Resetting, 0⟩ := by
  intro n
  induction n with
  | zero => rfl
  | succ n ih => rw [stateAfter_succ, ht, onTick_true]

lemma steps_append (s : ReleaseSequencer) (l1 l2 : List Bool) :
    steps s (l1 ++ l2) = steps (steps s l1) l2 := by
  induction l1 generalizing s with
  | nil => rfl
  | cons b bs ih =>
    rw [List.cons_append, steps_cons, steps_cons]
    exact ih _

lemma steps_replicate_false (n : Nat) :
    steps initSequencer (List.replicate n false) =
      stateAfter (fun _ => false) n := by
  induction n with
  | zero => rfl
  | succ n ih =>
    rw [List.replicate_succ', steps_append, ih, stateAfter_succ]
    rfl

lemma stateAfter_congr (input1 input2 : Nat → Bool) :
    ∀ n : Nat, (∀ k, 1 ≤ k → k ≤ n → input1 k = input2 k) →
      stateAfter input1 n = stateAfter input2 n := by
  intro n
  induction n with
  | zero => intro _; rfl
  | succ n ih =>
    intro h
    rw [stateAfter_succ, stateAfter_succ,
        ih (fun k hk1 hk2 => h k hk1 (Nat.le_succ_of_le hk2)),
        h (n + 1) (by omega) (by omega)]

/-- The bios_map of the i6500 wrapper
(src/litex/soc/cores/cpu/i6500/core.py, lines 296-300): cached
accesses live in the xkphys-style cached window, uncached accesses in
the uncached window. -/
def i6500.bios_map (addr : Nat) (cached : Bool) : Nat :=
  if cached then addr + 0xffffffff80000000 else addr + 0xffffffffa0000000

/-- The bios_map of the MIPSFPGA wrapper
(src/litex/soc/cores/cpu/mipsfpga/core.py, lines 134-138): cached
accesses live in kseg0, uncached accesses in kseg1. -/
def MIPSFPGA.bios_map (addr : Nat) (cached : Bool) : Nat :=
  if cached then addr + 0x80000000 else addr + 0xa0000000

/-- Claim C1: starting from a freshly reset sequencer, in a run where
externalResetAsserted is false on every tick, both outputs are true on
each of ticks 1 through 128 and false on tick 129 and every later
tick. -/
theorem c1_release_boundary (input : Nat → Bool) (hf : ∀ k, input k = false)
    (n : Nat) :
    (1 ≤ n → n ≤ 128 → outputAt input n = ⟨true, true⟩) ∧
    (129 ≤ n → outputAt input n = ⟨false, false⟩) := by
  constructor
  · intro h1 h2
    rw [outputAt, onTick_snd, stateAfter_const_false input hf,
        if_pos (by omega : n - 1 ≤ 127)]
    rfl
  · intro h1
    rw [outputAt, onTick_snd, stateAfter_const_false input hf,
        if_neg (by omega : ¬ n - 1 ≤ 127)]
    rfl

theorem c1_release_boundary_witness :
    outputAt (fun _ => false) 128 = ⟨true, true⟩ ∧
    outputAt (fun _ => false) 129 = ⟨false, false⟩ :=
  ⟨(c1_release_boundary (fun _ => false) (fun _ => rfl) 128).1
      (by norm_num) (by norm_num),
   (c1_release_boundary (fun _ => false) (fun _ => rfl) 129).2 (by norm_num)⟩

/-- Claim C2: from every sequencer state, a tick with
externalResetAsserted true forces the state to Resetting with the
SettleCounter at 0, overriding any in-progress counting. -/
theorem c2_reset_priority (s : ReleaseSequencer) :
    (onTick s true).1 = ⟨.Resetting, 0⟩ := by
  rw [onTick_true]

/-- Claim C3: in every reachable state, the two outputs are both true
exactly when the state is Resetting, and both false exactly when the
state is PoweredUp. -/
theorem c3_outputs_iff_resetting (s : ReleaseSequencer) (hr : Reachable s) :
    ((outputsOf s.state).clusterResetAsserted = true ∧
       (outputsOf s.state).clusterPowerAsserted = true ↔
     s.state = .Resetting) ∧
    ((outputsOf s.state).clusterResetAsserted = false ∧
       (outputsOf s.state).clusterPowerAsserted = false ↔
     s.state = .PoweredUp) := by
  rcases s with ⟨st, c⟩
  cases st <;> simp [outputsOf]

theorem c3_outputs_iff_resetting_witness :
    ((outputsOf initSequencer.state).clusterResetAsserted = true ∧
       (outputsOf initSequencer.state).clusterPowerAsserted = true ↔
     initSequencer.state = .Resetting) ∧
    ((outputsOf initSequencer.state).clusterResetAsserted = false ∧
       (outputsOf initSequencer.state).clusterPowerAsserted = false ↔
     initSequencer.state = .PoweredUp) :=
  c3_outputs_iff_resetting initSequencer ⟨[], rfl⟩

/-- Claim C4: from every reachable Resetting state, the reset-free
tick moves the state to PoweredUp exactly when the post-increment
SettleCounter reaches 128 — on no earlier tick, and never deferred. -/
theorem c4_transition_exactly_at_128 (s : ReleaseSequencer) (hr : Reachable s)
    (hs : s.state = .Resetting) :
    ((onTick s false).1.state = .PoweredUp ↔ s.settleCounter + 1 = 128) ∧
    ((onTick s false).1.state = .Resetting ↔ s.settleCounter + 1 < 128) := by
  rcases s with ⟨st, c⟩
  cases st
  · have hc : c ≤ 127 := (reachable_goodState _ hr).1 rfl
    dsimp only
    rw [onTick_false_resetting]
    by_cases h : 128 ≤ c + 1
    · rw [if_pos h]
      constructor
      · exact ⟨fun _ => by omega, fun _ => rfl⟩
      · constructor
        · intro hx; simp at hx
        · intro hx; exfalso; omega
    · rw [if_neg h]
      constructor
      · constructor
        · intro hx; simp at hx
        · intro hx; exfalso; omega
      · exact ⟨fun _ => by omega, fun _ => rfl⟩
  · simp at hs

theorem c4_transition_exactly_at_128_witness :
    ((onTick ⟨.Resetting, 127⟩ false).1.state = .PoweredUp ↔ 127 + 1 = 128) ∧
    ((onTick ⟨.Resetting, 127⟩ false).1.state = .Resetting ↔ 127 + 1 < 128) :=
  c4_transition_exactly_at_128 ⟨.Resetting, 127⟩
    ⟨List.replicate 127 false, by
      rw [steps_replicate_false,
          stateAfter_const_false (fun _ => false) (fun _ => rfl)]
      norm_num⟩ rfl

/-- Claim C5: in a run where externalResetAsserted is true on every
tick, the sequencer stays in Resetting forever, with both outputs true
on every tick, and never reaches PoweredUp. -/
theorem c5_held_reset (input : Nat → Bool) (ht : ∀ k, input k = true)
    (n : Nat) :
    (stateAfter input n).state = .Resetting ∧
    (1 ≤ n → outputAt input n = ⟨true, true⟩) := by
  constructor
  · rw [stateAfter_const_true input ht]
  · intro _
    rw [outputAt, onTick_snd, stateAfter_const_true input ht]
    rfl

theorem c5_held_reset_witness :
    (stateAfter (fun _ => true) 200).state = .Resetting ∧
    outputAt (fun _ => true) 200 = ⟨true, true⟩ :=
  ⟨(c5_held_reset (fun _ => true) (fun _ => rfl) 200).1,
   (c5_held_reset (fun _ => true) (fun _ => rfl) 200).2 (by norm_num)⟩

/-- Claim C6: once in PoweredUp, any number of reset-free ticks leaves
the sequencer exactly where it was, with outputs (false, false); the
only input that moves the state out of PoweredUp is an external
reset. -/
theorem c6_poweredUp_stable (s : ReleaseSequencer) (hs : s.state = .PoweredUp) :
    (∀ n : Nat, steps s (List.replicate n false) = s) ∧
    (onTick s false).1 = s ∧
    (onTick s false).2 = ⟨false, false⟩ ∧
    (∀ b : Bool, ((onTick s b).1).state = .Resetting → b = true) := by
  rcases s with ⟨st, c⟩
  cases st
  · simp at hs
  · refine ⟨?_, rfl, rfl, ?_⟩
    · intro n
      induction n with
      | zero => rfl
      | succ n ih =>
        rw [List.replicate_succ, steps_cons, onTick_false_poweredUp]
        exact ih
    · intro b hb
      cases b
      · rw [onTick_false_poweredUp] at hb
        simp at hb
      · rfl

theorem c6_poweredUp_stable_witness :
    steps ⟨.PoweredUp, 128⟩ (List.replicate 5 false) = ⟨.PoweredUp, 128⟩ ∧
    (onTick ⟨.PoweredUp, 128⟩ false).1 = ⟨.PoweredUp, 128⟩ ∧
    (onTick ⟨.PoweredUp, 128⟩ false).2 = ⟨false, false⟩ :=
  ⟨(c6_poweredUp_stable ⟨.PoweredUp, 128⟩ rfl).1 5,
   (c6_poweredUp_stable ⟨.PoweredUp, 128⟩ rfl).2.1,
   (c6_poweredUp_stable ⟨.PoweredUp, 128⟩ rfl).2.2.1⟩

/-- Claim C7: in every reachable state the SettleCounter lies in
[0, 128], and outside Resetting a tick never increases it. -/
theorem c7_counter_bounded (s : ReleaseSequencer) (hr : Reachable s) :
    s.settleCounter ≤ 128 ∧
    (s.state ≠ .Resetting → ∀ b : Bool,
      ((onTick s b).1).settleCounter ≤ s.settleCounter) := by
  obtain ⟨h1, h2⟩ := reachable_goodState s hr
  rcases s with ⟨st, c⟩
  cases st
  · exact ⟨by have := h1 rfl; omega, fun hne => absurd rfl hne⟩
  · refine ⟨by have := h2 rfl; omega, fun _ b => ?_⟩
    cases b
    · rw [onTick_false_poweredUp]
    · rw [onTick_true]
      exact Nat.zero_le _

theorem c7_counter_bounded_witness :
    (⟨.PoweredUp, 128⟩ : ReleaseSequencer).settleCounter ≤ 128 ∧
    ((⟨.PoweredUp, 128⟩ : ReleaseSequencer).state ≠ .Resetting → ∀ b : Bool,
      ((onTick ⟨.PoweredUp, 128⟩ b).1).settleCounter ≤
        (⟨.PoweredUp, 128⟩ : ReleaseSequencer).settleCounter) :=
  c7_counter_bounded ⟨.PoweredUp, 128⟩
    ⟨List.replicate 128 false, by
      rw [steps_replicate_false,
          stateAfter_const_false (fun _ => false) (fun _ => rfl)]
      norm_num⟩

/-- Claim C8: the sequencer is deterministic and causal: two runs
whose inputs agree on ticks 1..n are in the same state after tick n
and return the same outputs on tick n — tick n depends on nothing
beyond the state at the end of tick n-1 and the tick-n input. -/
theorem c8_deterministic_no_future (input1 input2 : Nat → Bool) (n : Nat)
    (h : ∀ k, 1 ≤ k → k ≤ n → input1 k = input2 k) :
    stateAfter input1 n = stateAfter input2 n ∧
    (1 ≤ n → outputAt input1 n = outputAt input2 n) := by
  constructor
  · exact stateAfter_congr input1 input2 n h
  · intro hn
    obtain ⟨m, hm⟩ : ∃ m, n = m + 1 := ⟨n - 1, by omega⟩
    subst hm
    rw [outputAt, outputAt]
    simp only [Nat.add_sub_cancel]
    rw [stateAfter_congr input1 input2 m
          (fun k hk1 hk2 => h k hk1 (Nat.le_succ_of_le hk2)),
        h (m + 1) (by omega) (by omega)]

theorem c8_deterministic_no_future_witness :
    stateAfter (fun _ => false) 3 = stateAfter (fun k => decide (k = 9)) 3 ∧
    outputAt (fun _ => false) 3 = outputAt (fun k => decide (k = 9)) 3 := by
  have hagree : ∀ k, 1 ≤ k → k ≤ 3 →
      (fun _ => false) k = (fun k => decide (k = 9)) k := by
    intro k _ hk2
    have hne : k ≠ 9 := by omega
    simp [hne]
  exact ⟨(c8_deterministic_no_future (fun _ => false)
            (fun k => decide (k = 9)) 3 hagree).1,
         (c8_deterministic_no_future (fun _ => false)
            (fun k => decide (k = 9)) 3 hagree).2 (by norm_num)⟩

/-- Claim C9: on every tick of every run, the two outputs carry the
same value — the state machine never drives clusterResetAsserted and
clusterPowerAsserted apart. -/
theorem c9_outputs_agree (input : Nat → Bool) (n : Nat) :
    (outputAt input n).clusterResetAsserted =
      (outputAt input n).clusterPowerAsserted := by
  rw [outputAt, onTick_snd]
  cases hst : (stateAfter input (n - 1)).state <;> rfl

/-- Claim C10: both bios_map functions place the uncached window
exactly 0x20000000 above the cached window, with the cached/uncached
bases 0xffffffff80000000 / 0xffffffffa0000000 for i6500 and
0x80000000 / 0xa0000000 for MIPSFPGA. -/
theorem c10_bios_map_windows (addr : Nat) :
    i6500.bios_map addr false = i6500.bios_map addr true + 0x20000000 ∧
    i6500.bios_map addr true = addr + 0xffffffff80000000 ∧
    i6500.bios_map addr false = addr + 0xffffffffa0000000 ∧
    MIPSFPGA.bios_map addr false = MIPSFPGA.bios_map addr true + 0x20000000 ∧
    MIPSFPGA.bios_map addr true = addr + 0x80000000 ∧
    MIPSFPGA.bios_map addr false = addr + 0xa0000000 := by
  refine ⟨?_, rfl, rfl, ?_, rfl, rfl⟩
  · show addr + 0xffffffffa0000000 = addr + 0xffffffff80000000 + 0x20000000
    omega
  · show addr + 0xa0000000 = addr + 0x80000000 + 0x20000000
    omega

end LitexCPU
